import Mathlib

/-!
Verification of the bioRAG frontend (Vue single-page application).

The embedding covers:
* `SearchResult` and the deduplication computed property `uniqueResults`
  from `src/frontend/src/App.vue` (`uniqueResults`, lines 33-44);
* the root search handler `handleSearch` from `src/frontend/src/App.vue`
  (lines 46-61), modelled as an explicit state-transition function over the
  component's `data` record, with the settlement of the awaited HTTP call
  supplied as a parameter, and a step-by-step trace of the observable states;
* the HTTP client wrapper `searchAPI` from `src/frontend/src/api.js`;
* the conditional-visibility rules of `src/frontend/src/components/SearchResults.vue`.

JavaScript values that may be `undefined` are modelled with `Option`; a
resolved response body that is `null`/`undefined` (reading whose fields
throws) is modelled by `JsValue.nullish`, and the `try`/`catch` of
`handleSearch` by an explicit `Except` for the body of the `try` block.
-/

namespace BioRag

/-- A search result as received from the API.  `pmc_id` and `authors` may be
absent in the JSON object (`undefined` in JavaScript), hence `Option`. -/
structure SearchResult where
  pmc_id : Option String
  title : String
  authors : Option String
  year : Nat
  journal : String
deriving DecidableEq, Repr

/-- The recursion behind the JavaScript
`this.results.filter(result => { if (seen.has(result.pmc_id)) return false;
seen.add(result.pmc_id); return true })`: the accumulating `seen` set is the
second argument (a list of identifiers already admitted). -/
def uniqueResultsAux : List SearchResult → List (Option String) → List SearchResult
  | [], _ => []
  | r :: rs, seen =>
    if r.pmc_id ∈ seen then
      uniqueResultsAux rs seen
    else
      r :: uniqueResultsAux rs (r.pmc_id :: seen)

/-- The `uniqueResults` computed property of `App.vue`: keep only the first
occurrence (in arrival order) of each `pmc_id`. -/
def uniqueResults (results : List SearchResult) : List SearchResult :=
  uniqueResultsAux results []

/-- Entries with an identifier already in `seen` never survive. -/
theorem uniqueResultsAux_filter_mem (rs : List SearchResult)
    (seen : List (Option String)) (id : Option String) (hid : id ∈ seen) :
    (uniqueResultsAux rs seen).filter (fun r => decide (r.pmc_id = id)) = [] := by
  induction rs generalizing seen with
  | nil => rfl
  | cons r rs ih =>
    by_cases hmem : r.pmc_id ∈ seen
    · simp only [uniqueResultsAux, if_pos hmem]
      exact ih seen hid
    · simp only [uniqueResultsAux, if_neg hmem]
      have hne : ¬ r.pmc_id = id := fun h => hmem (h ▸ hid)
      rw [List.filter_cons_of_neg (by simpa using hne)]
      exact ih (r.pmc_id :: seen) (List.mem_cons_of_mem _ hid)

/-- For an identifier not yet seen, the surviving entries with that identifier
are exactly the first matching entry of the input. -/
theorem uniqueResultsAux_filter_not_mem (rs : List SearchResult)
    (seen : List (Option String)) (id : Option String) (hid : id ∉ seen) :
    (uniqueResultsAux rs seen).filter (fun r => decide (r.pmc_id = id)) =
      (rs.filter (fun r => decide (r.pmc_id = id))).take 1 := by
  induction rs generalizing seen with
  | nil => rfl
  | cons r rs ih =>
    by_cases hmem : r.pmc_id ∈ seen
    · have hne : ¬ r.pmc_id = id := fun h => hid (h ▸ hmem)
      simp only [uniqueResultsAux, if_pos hmem]
      rw [List.filter_cons_of_neg (by simpa using hne)]
      exact ih seen hid
    · simp only [uniqueResultsAux, if_neg hmem]
      by_cases heq : r.pmc_id = id
      · rw [List.filter_cons_of_pos (by simpa using heq),
          List.filter_cons_of_pos (by simpa using heq)]
        rw [uniqueResultsAux_filter_mem rs (r.pmc_id :: seen) id
          (heq ▸ List.mem_cons_self _ _)]
        simp
      · rw [List.filter_cons_of_neg (by simpa using heq),
          List.filter_cons_of_neg (by simpa using heq)]
        exact ih (r.pmc_id :: seen) (by
          intro h
          rcases List.mem_cons.mp h with h | h
          · exact heq h.symm
          · exact hid h)

/-- The deduplicated list is a sublist of the input (order preserved, entries
taken verbatim). -/
theorem uniqueResultsAux_sublist (rs : List SearchResult)
    (seen : List (Option String)) :
    List.Sublist (uniqueResultsAux rs seen) rs := by
  induction rs generalizing seen with
  | nil => exact List.Sublist.refl _
  | cons r rs ih =>
    by_cases hmem : r.pmc_id ∈ seen
    · simp only [uniqueResultsAux, if_pos hmem]
      exact List.Sublist.cons _ (ih seen)
    · simp only [uniqueResultsAux, if_neg hmem]
      exact List.Sublist.cons₂ _ (ih (r.pmc_id :: seen))

/-- Per-identifier characterisation of `uniqueResults`: the entries carrying a
given identifier are exactly the first such entry of the input. -/
theorem uniqueResults_filter_eq_take_one (rs : List SearchResult)
    (id : Option String) :
    (uniqueResults rs).filter (fun r => decide (r.pmc_id = id)) =
      (rs.filter (fun r => decide (r.pmc_id = id))).take 1 :=
  uniqueResultsAux_filter_not_mem rs [] id (List.not_mem_nil id)

/-- Each identifier occurs at most once in the deduplicated list. -/
theorem uniqueResults_count_le_one (rs : List SearchResult) (id : Option String) :
    (uniqueResults rs).countP (fun r => decide (r.pmc_id = id)) ≤ 1 := by
  rw [List.countP_eq_length_filter, uniqueResults_filter_eq_take_one]
  exact List.length_take_le 1 _

/-- The identifiers admitted by the filter are pairwise distinct and disjoint
from the `seen` set it started with. -/
theorem uniqueResultsAux_map_nodup (rs : List SearchResult)
    (seen : List (Option String)) :
    ((uniqueResultsAux rs seen).map (·.pmc_id)).Nodup ∧
      ∀ id ∈ (uniqueResultsAux rs seen).map (·.pmc_id), id ∉ seen := by
  induction rs generalizing seen with
  | nil => exact ⟨List.nodup_nil, fun id h => absurd h (List.not_mem_nil id)⟩
  | cons r rs ih =>
    by_cases hmem : r.pmc_id ∈ seen
    · simpa only [uniqueResultsAux, if_pos hmem] using ih seen
    · simp only [uniqueResultsAux, if_neg hmem, List.map_cons]
      obtain ⟨hnodup, hdisj⟩ := ih (r.pmc_id :: seen)
      refine ⟨List.nodup_cons.mpr ⟨fun h => ?_, hnodup⟩, ?_⟩
      · exact hdisj r.pmc_id h (List.mem_cons_self _ _)
      · intro id hid
        rcases List.mem_cons.mp hid with h | h
        · exact h ▸ hmem
        · exact fun hs => hdisj id h (List.mem_cons_of_mem _ hs)

/-- The identifier column of the deduplicated list has no duplicates. -/
theorem uniqueResults_map_nodup (rs : List SearchResult) :
    ((uniqueResults rs).map (·.pmc_id)).Nodup :=
  (uniqueResultsAux_map_nodup rs []).1

/-- C1: for every result sequence (duplicates included), the deduplicated
sequence computed before rendering is a sublist of the input (so the relative
order of survivors is the original one and every surviving entry is taken
verbatim), its identifier column has no duplicates, and for each identifier
the surviving entries are exactly the first entry of the input carrying that
identifier — so each identifier present in the input occurs exactly once,
with the first occurrence's full data. -/
theorem uniqueResults_dedup_first_occurrence_order (rs : List SearchResult) :
    List.Sublist (uniqueResults rs) rs ∧
    ((uniqueResults rs).map (·.pmc_id)).Nodup ∧
    ∀ id, (uniqueResults rs).filter (fun r => decide (r.pmc_id = id)) =
      (rs.filter (fun r => decide (r.pmc_id = id))).take 1 :=
  ⟨uniqueResultsAux_sublist rs [], (uniqueResultsAux_map_nodup rs []).1,
    fun id => uniqueResultsAux_filter_not_mem rs [] id (List.not_mem_nil id)⟩

/-- C9: entries with no identifier field (`pmc_id` absent, i.e. `none`) are
deduplicated against each other: the survivors with an absent identifier are
exactly the first identifier-less entry of the input, so at most one
identifier-less entry survives and every subsequent one is dropped. -/
theorem uniqueResults_identifierless_collapse (rs : List SearchResult) :
    (uniqueResults rs).filter (fun r => decide (r.pmc_id = none)) =
      (rs.filter (fun r => decide (r.pmc_id = none))).take 1 ∧
    (uniqueResults rs).countP (fun r => decide (r.pmc_id = none)) ≤ 1 :=
  ⟨uniqueResultsAux_filter_not_mem rs [] none (List.not_mem_nil none),
    uniqueResults_count_le_one rs none⟩

/-- The root component's `data` record from `App.vue`. -/
structure AppState where
  results : List SearchResult
  summary : String
  loading : Bool
  searched : Bool
deriving DecidableEq, Repr

/-- A decoded JSON value resolved by the awaited HTTP call, as far as
`handleSearch` inspects it: either `null`/`undefined` (reading a property of
which throws a `TypeError`), or an object whose `results` and `summary`
properties may each be absent. -/
inductive JsValue where
  | nullish
  | obj (results : Option (List SearchResult)) (summary : Option String)
deriving DecidableEq, Repr

/-- Settlement of the awaited `searchAPI` call: resolution with a decoded
body, or rejection (network error, non-success status, malformed body). -/
inductive CallResult where
  | resolved (body : JsValue)
  | rejected
deriving DecidableEq, Repr

/-- Reading `data.results`; throws when `data` is `null`/`undefined`. -/
def readResults : JsValue → Except Unit (Option (List SearchResult))
  | .nullish => .error ()
  | .obj rs _ => .ok rs

/-- Reading `data.summary`; throws when `data` is `null`/`undefined`. -/
def readSummary : JsValue → Except Unit (Option String)
  | .nullish => .error ()
  | .obj _ sum => .ok sum

/-- The body of the `try` block of `handleSearch`: await the call, then
`this.results = data.results || []` and `this.summary = data.summary || ''`.
Any rejection or thrown property read is an `error`. -/
def tryBlock (s : AppState) (call : CallResult) : Except Unit AppState :=
  match call with
  | .rejected => .error ()
  | .resolved body => do
    let rs ← readResults body
    let sum ← readSummary body
    .ok { s with results := rs.getD [], summary := sum.getD "" }

/-- `handleSearch` from `App.vue`: set `loading` and `searched`, run the
`try` block, on a caught error clear `results` and `summary`, and afterwards
unconditionally clear `loading`. -/
def handleSearch (s : AppState) (call : CallResult) : AppState :=
  let s1 := { s with loading := true, searched := true }
  let s2 :=
    match tryBlock s1 call with
    | .ok s' => s'
    | .error _ => { s1 with results := [], summary := "" }
  { s2 with loading := false }

/-- The observable states of one `handleSearch` run, one entry per mutation of
the component state, in program order: initial state, after `loading = true`,
after `searched = true` (the request is issued here), after the assignment to
`results`, after the assignment to `summary`, after `loading = false`. -/
def handleSearchTrace (s : AppState) (call : CallResult) : List AppState :=
  let s1 := { s with loading := true }
  let s2 := { s1 with searched := true }
  match call with
  | .resolved (.obj rs sum) =>
    let s3 := { s2 with results := rs.getD [] }
    let s4 := { s3 with summary := sum.getD "" }
    [s, s1, s2, s3, s4, { s4 with loading := false }]
  | .resolved .nullish =>
    let s3 := { s2 with results := [] }
    let s4 := { s3 with summary := "" }
    [s, s1, s2, s3, s4, { s4 with loading := false }]
  | .rejected =>
    let s3 := { s2 with results := [] }
    let s4 := { s3 with summary := "" }
    [s, s1, s2, s3, s4, { s4 with loading := false }]

/-- A sequence of completed search submissions. -/
def runSearches (s : AppState) (calls : List CallResult) : AppState :=
  calls.foldl handleSearch s

/-- The trace ends in exactly the state `handleSearch` computes. -/
theorem handleSearchTrace_getLast (s : AppState) (call : CallResult) :
    (handleSearchTrace s call).getLast? = some (handleSearch s call) := by
  cases call with
  | rejected => rfl
  | resolved body => cases body <;> rfl

/-- Every submission ends with `searched = true`. -/
theorem handleSearch_searched (s : AppState) (call : CallResult) :
    (handleSearch s call).searched = true := by
  cases call with
  | rejected => rfl
  | resolved body => cases body <;> rfl

/-- C2: after a failing search request, `results` and `summary` are both
empty whatever they were before, and the resulting state is identical to the
one reached by a successful request with an empty result list and empty
summary — failure is not a distinct UI state. -/
theorem handleSearch_failure_clears (s : AppState) :
    (handleSearch s .rejected).results = [] ∧
    (handleSearch s .rejected).summary = "" ∧
    handleSearch s .rejected =
      handleSearch s (.resolved (.obj (some []) (some ""))) :=
  ⟨rfl, rfl, rfl⟩

/-- C3: within one submission the observable values of the `loading` flag
are: the prior value, then `true` from the mutation step before the request is
issued through every step until settlement, then `false` exactly at the final
step — set before the request, cleared once after it settles, on the success
path and the failure path alike. -/
theorem handleSearch_loading_lifecycle (s : AppState) (call : CallResult) :
    (handleSearchTrace s call).map (·.loading) =
      [s.loading, true, true, true, true, false] := by
  cases call with
  | rejected => rfl
  | resolved body => cases body <;> rfl

/-- C4: the `searched` flag is a one-way latch: each submission sets it to
`true` even on failure (visible from the second mutation step of the trace
onwards), and a run of any sequence of submissions leaves it `true` exactly
when it was already `true` or at least one submission happened — it is never
reset to `false`. -/
theorem handleSearch_searched_latch (s : AppState) (call : CallResult)
    (calls : List CallResult) :
    (handleSearch s call).searched = true ∧
    (handleSearchTrace s call).map (·.searched) =
      [s.searched, s.searched, true, true, true, true] ∧
    (runSearches s calls).searched = (s.searched || !calls.isEmpty) := by
  refine ⟨handleSearch_searched s call, ?_, ?_⟩
  · cases call with
    | rejected => rfl
    | resolved body => cases body <;> rfl
  · induction calls generalizing s with
    | nil => simp [runSearches]
    | cons c cs ih =>
      show (runSearches (handleSearch s c) cs).searched = _
      rw [ih (handleSearch s c), handleSearch_searched s c]
      simp

/-- C5: a successful request replaces the whole state: `results` and
`summary` become exactly the response's fields, an absent `results` field
defaulting to the empty list and an absent `summary` field to the empty
string, with `loading` cleared and `searched` set. -/
theorem handleSearch_success_replaces (s : AppState)
    (rs : Option (List SearchResult)) (sum : Option String) :
    handleSearch s (.resolved (.obj rs sum)) =
      { results := rs.getD [], summary := sum.getD "",
        loading := false, searched := true } :=
  rfl

/-- C8: `handleSearch` is a total function on every call outcome (no
exception escapes it), it clears `loading` for every outcome, and a resolved
body that is `null`/`undefined` — whose property reads throw — is caught and
lands in exactly the same state as a rejected request: empty `results`,
empty `summary`. -/
theorem handleSearch_total_catches_nullish (s : AppState) (call : CallResult) :
    (handleSearch s call).loading = false ∧
    handleSearch s (.resolved .nullish) = handleSearch s .rejected ∧
    (handleSearch s (.resolved .nullish)).results = [] ∧
    (handleSearch s (.resolved .nullish)).summary = "" := by
  refine ⟨?_, rfl, rfl, rfl⟩
  cases call with
  | rejected => rfl
  | resolved body => cases body <;> rfl

/-- The `uniqueResults` computed property read as a state-passing getter: it
produces the deduplicated view and passes the component state through. The
underlying JavaScript `Array.prototype.filter` allocates a fresh array and the
`seen` set is local, so the getter performs no write to the state. -/
def uniqueResultsView (s : AppState) : List SearchResult × AppState :=
  (uniqueResults s.results, s)

/-- C10: evaluating the deduplicated view mutates nothing: the state after
the read equals the state before it, field by field, and the value produced
is the deduplication of the stored `results` — a new sequence, the stored one
being returned untouched. -/
theorem uniqueResultsView_frame (s : AppState) :
    (uniqueResultsView s).2 = s ∧
    (uniqueResultsView s).2.results = s.results ∧
    (uniqueResultsView s).2.summary = s.summary ∧
    (uniqueResultsView s).2.loading = s.loading ∧
    (uniqueResultsView s).2.searched = s.searched ∧
    (uniqueResultsView s).1 = uniqueResults s.results :=
  ⟨rfl, rfl, rfl, rfl, rfl, rfl⟩

/-- An HTTP request as issued by the axios instance of `api.js`: method,
full URL, and the JSON body `{ query, top_k }`. -/
structure SearchRequest where
  method : String
  url : String
  query : String
  top_k : Nat
deriving DecidableEq, Repr

/-- The `baseURL` of the axios instance in `api.js`. -/
def baseURL : String := "http://localhost:5001/api"

/-- An axios response; `searchAPI` only reads its `data` (the decoded JSON
body). -/
structure AxiosResponse where
  data : JsValue
deriving DecidableEq, Repr

/-- `searchAPI` from `api.js`: POST `{ query, top_k }` to `/search` under the
instance's `baseURL` and return `response.data`.  The transport is the `post`
parameter; the JavaScript default parameter `topK = 10` is modelled by an
`Option` argument defaulted with 10. -/
def searchAPI (post : SearchRequest → AxiosResponse) (query : String)
    (topK : Option Nat) : JsValue :=
  (post { method := "POST", url := baseURL ++ "/search",
          query := query, top_k := topK.getD 10 }).data

/-- C6: for every query and every transport, `searchAPI` issues one POST to
the fixed URL `http://localhost:5001/api/search` with body `{ query, top_k }`,
uses `top_k = 10` when the caller supplies no limit, and returns the decoded
response body unchanged. -/
theorem searchAPI_request_shape (post : SearchRequest → AxiosResponse)
    (query : String) (k : Nat) :
    searchAPI post query none =
      (post { method := "POST", url := "http://localhost:5001/api/search",
              query := query, top_k := 10 }).data ∧
    searchAPI post query (some k) =
      (post { method := "POST", url := "http://localhost:5001/api/search",
              query := query, top_k := k }).data :=
  ⟨rfl, rfl⟩

/-- The props of the presentational `SearchResults.vue` component. -/
structure ViewProps where
  results : List SearchResult
  summary : String
  loading : Bool
  searched : Bool
deriving DecidableEq, Repr

/-- `v-if="loading"`. -/
def showLoading (p : ViewProps) : Bool := p.loading

/-- `v-if="summary"`: a string is truthy when non-empty. -/
def showSummary (p : ViewProps) : Bool := !(p.summary = "")

/-- `v-if="results.length > 0"`. -/
def showResultList (p : ViewProps) : Bool := 0 < p.results.length

/-- `v-if="!loading && results.length === 0 && searched"`. -/
def showNoResults (p : ViewProps) : Bool :=
  !p.loading && p.results.length = 0 && p.searched

/-- C7: the no-results message renders exactly when the loading flag is
false, the result list passed to the view is empty, and the searched flag is
true; for every other combination of the inputs it does not render. -/
theorem showNoResults_iff (p : ViewProps) :
    showNoResults p = true ↔
      (p.loading = false ∧ p.results = [] ∧ p.searched = true) := by
  constructor
  · intro h
    simp only [showNoResults, Bool.and_eq_true, Bool.not_eq_true',
      decide_eq_true_eq] at h
    exact ⟨h.1.1, List.length_eq_zero.mp h.1.2, h.2⟩
  · rintro ⟨h1, h2, h3⟩
    simp [showNoResults, h1, h2, h3]

end BioRag
